import Mathlib

/-!
Verification of the easing-function library of `crates/emath/src/easing.rs`.

The Rust module defines a closed enum `Easing` of 30 named easing curves plus a
sentinel `Max`, a forward evaluator and an inverse evaluator per variant, a
reversibility predicate, an ordinal conversion (`impl From<usize>` and the
`as usize` cast), and a cursor-style iterator `Easings` over the catalog.

Embedding conventions:
* `f64` values are modelled as real numbers; `f64` operations (`sin`, `cos`,
  `sqrt`, `powf`, `powi`, `log2`, `cbrt`, arithmetic) are modelled by the
  corresponding exact real operations.
* A Rust function that can panic is modelled with an `Option` result:
  `none` models the panic.  The forward evaluator bodies are total, so they
  are plain functions `ℝ → ℝ`; the inverse evaluators of the Back, Elastic
  and Bounce families call `unimplemented!` at call time, so every inverse
  evaluator is modelled as `ℝ → Option ℝ`.  The dispatchers `apply_function`
  and `inverse_function` hit `unreachable!` on `Easing::Max`, so they return
  `Option` as well.
* The mutating iterator `Easings::next` is modelled by explicit state
  passing: it returns the yielded element (if any) and the successor state.
-/

open Real

noncomputable section

/-- `(2.0 * PI) / 3.0` from the source (unused by the claims but kept). -/
def FRAC_2_PI_3 : ℝ := (2 * π) / 3

/-- `(2.0 * PI) / 4.5` from the source (unused by the claims but kept). -/
def FRAC_2_PI_4_5 : ℝ := (2 * π) / 4.5

/-- The `Easing` enum from the source, in declaration order, including the
sentinel `Max`. -/
inductive Easing where
  | SineIn | SineOut | SineInOut
  | QuadIn | QuadOut | QuadInOut
  | CubicIn | CubicOut | CubicInOut
  | QuartIn | QuartOut | QuartInOut
  | QuintIn | QuintOut | QuintInOut
  | ExpoIn | ExpoOut | ExpoInOut
  | CircIn | CircOut | CircInOut
  | BackIn | BackOut | BackInOut
  | ElasticIn | ElasticOut | ElasticInOut
  | BounceIn | BounceOut | BounceInOut
  | Max
  deriving DecidableEq, Fintype

/-- The ten curve families of the spec's data model. -/
inductive Family where
  | Sine | Quad | Cubic | Quart | Quint | Expo | Circ | Back | Elastic | Bounce
  deriving DecidableEq, Fintype

/-- The family of a variant (`none` for the sentinel `Max`).  Derived from the
variant names / declaration grouping of the enum. -/
def Easing.family : Easing → Option Family
  | .SineIn | .SineOut | .SineInOut => some .Sine
  | .QuadIn | .QuadOut | .QuadInOut => some .Quad
  | .CubicIn | .CubicOut | .CubicInOut => some .Cubic
  | .QuartIn | .QuartOut | .QuartInOut => some .Quart
  | .QuintIn | .QuintOut | .QuintInOut => some .Quint
  | .ExpoIn | .ExpoOut | .ExpoInOut => some .Expo
  | .CircIn | .CircOut | .CircInOut => some .Circ
  | .BackIn | .BackOut | .BackInOut => some .Back
  | .ElasticIn | .ElasticOut | .ElasticInOut => some .Elastic
  | .BounceIn | .BounceOut | .BounceInOut => some .Bounce
  | .Max => none

/-- `Easing::reversible` from the source: `true` exactly for the 21 listed
variants, `false` for everything else (the wildcard arm). -/
def Easing.reversible : Easing → Bool
  | .SineIn | .SineOut | .SineInOut
  | .QuadIn | .QuadOut | .QuadInOut
  | .CubicIn | .CubicOut | .CubicInOut
  | .QuartIn | .QuartOut | .QuartInOut
  | .QuintIn | .QuintOut | .QuintInOut
  | .ExpoIn | .ExpoOut | .ExpoInOut
  | .CircIn | .CircOut | .CircInOut => true
  | _ => false

/-- `impl From<usize> for Easing`: ordinals `0..=29` map to the variants in
declaration order, everything else to the sentinel `Max`. -/
def Easing.fromUsize : ℕ → Easing
  | 0 => .SineIn
  | 1 => .SineOut
  | 2 => .SineInOut
  | 3 => .QuadIn
  | 4 => .QuadOut
  | 5 => .QuadInOut
  | 6 => .CubicIn
  | 7 => .CubicOut
  | 8 => .CubicInOut
  | 9 => .QuartIn
  | 10 => .QuartOut
  | 11 => .QuartInOut
  | 12 => .QuintIn
  | 13 => .QuintOut
  | 14 => .QuintInOut
  | 15 => .ExpoIn
  | 16 => .ExpoOut
  | 17 => .ExpoInOut
  | 18 => .CircIn
  | 19 => .CircOut
  | 20 => .CircInOut
  | 21 => .BackIn
  | 22 => .BackOut
  | 23 => .BackInOut
  | 24 => .ElasticIn
  | 25 => .ElasticOut
  | 26 => .ElasticInOut
  | 27 => .BounceIn
  | 28 => .BounceOut
  | 29 => .BounceInOut
  | _ => .Max

/-- The `self as usize` cast of the `#[repr(usize)]` enum: the declaration
index of the variant. -/
def Easing.toOrdinal : Easing → ℕ
  | .SineIn => 0
  | .SineOut => 1
  | .SineInOut => 2
  | .QuadIn => 3
  | .QuadOut => 4
  | .QuadInOut => 5
  | .CubicIn => 6
  | .CubicOut => 7
  | .CubicInOut => 8
  | .QuartIn => 9
  | .QuartOut => 10
  | .QuartInOut => 11
  | .QuintIn => 12
  | .QuintOut => 13
  | .QuintInOut => 14
  | .ExpoIn => 15
  | .ExpoOut => 16
  | .ExpoInOut => 17
  | .CircIn => 18
  | .CircOut => 19
  | .CircInOut => 20
  | .BackIn => 21
  | .BackOut => 22
  | .BackInOut => 23
  | .ElasticIn => 24
  | .ElasticOut => 25
  | .ElasticInOut => 26
  | .BounceIn => 27
  | .BounceOut => 28
  | .BounceInOut => 29
  | .Max => 30

/-- The iterator struct `Easings { current: Easing }`. -/
structure Easings where
  current : Easing
  deriving DecidableEq

/-- `Easings::new()`: the cursor starts at `SineIn`. -/
def Easings.new : Easings := ⟨Easing.SineIn⟩

/-- `Easings::next` (from `impl Iterator for Easings`), with the mutation of
`self.current` made explicit: returns the yielded item and the new state. -/
def Easings.next (s : Easings) : Option Easing × Easings :=
  if s.current ≠ Easing.Max then
    (some s.current, ⟨Easing.fromUsize (s.current.toOrdinal + 1)⟩)
  else
    (none, s)

/-- Fuel-bounded collection of the iterator's remaining output. -/
def Easings.collect : ℕ → Easings → List Easing
  | 0, _ => []
  | n + 1, s =>
    match Easings.next s with
    | (some e, s') => e :: Easings.collect n s'
    | (none, _) => []

/-- `Easing::all()` returns `Easings::new()`. -/
def Easing.all : Easings := Easings.new

/-! ### Forward evaluators (`ℝ → ℝ`, one per variant, from the source) -/

/-- Model of `f64::cbrt`: the real cube root (odd extension of `x ^ (1/3)`). -/
def cbrt (x : ℝ) : ℝ := if x < 0 then -((-x) ^ ((1 : ℝ) / 3)) else x ^ ((1 : ℝ) / 3)

/-- The constant `C1 = 1.70158` of the Back family. -/
def backC1 : ℝ := 1.70158

/-- The constant `C3 = C1 + 1.0` of `back_in` / `back_out`. -/
def backC3 : ℝ := backC1 + 1

/-- The constant `C2 = C1 * 1.525` of `back_in_out`. -/
def backC2 : ℝ := backC1 * 1.525

def sine_in (x : ℝ) : ℝ :=
  if x = 0 ∨ x = 1 then x else 1 - Real.cos (x * π / 2)

def sine_out (x : ℝ) : ℝ :=
  if x = 0 ∨ x = 1 then x else Real.sin (x * π / 2)

def sine_in_out (x : ℝ) : ℝ :=
  if x = 0 ∨ x = 1 then x else -(Real.cos (x * π) - 1) / 2

def quad_in (x : ℝ) : ℝ := x * x

def quad_out (x : ℝ) : ℝ := 1 - (1 - x) * (1 - x)

/-- `quad_in_out`; the local `v = -2.0 * x + 2.0` of the source is inlined. -/
def quad_in_out (x : ℝ) : ℝ :=
  if x < 0.5 then 2 * x * x
  else 1 - (-2 * x + 2) * (-2 * x + 2) / 2

def cubic_in (x : ℝ) : ℝ := x * x * x

def cubic_out (x : ℝ) : ℝ := 1 - (1 - x) * (1 - x) * (1 - x)

def cubic_in_out (x : ℝ) : ℝ :=
  if x = 0 ∨ x = 1 then x
  else if x < 0.5 then 4 * x * x * x
  else 1 - (-2 * x + 2) ^ 3 / 2

def quart_in (x : ℝ) : ℝ := x * x * x * x

def quart_out (x : ℝ) : ℝ := 1 - (1 - x) ^ 4

def quart_in_out (x : ℝ) : ℝ :=
  if x < 0.5 then 8 * x * x * x * x
  else 1 - (-2 * x + 2) ^ 4 / 2

def quint_in (x : ℝ) : ℝ := x * x * x * x * x

def quint_out (x : ℝ) : ℝ := 1 - (1 - x) ^ 5

def quint_in_out (x : ℝ) : ℝ :=
  if x < 0.5 then 16 * x * x * x * x * x
  else 1 - (-2 * x + 2) ^ 5 / 2

def expo_in (x : ℝ) : ℝ :=
  if x = 0 ∨ x = 1 then x else (2 : ℝ) ^ (10 * x - 10)

def expo_out (x : ℝ) : ℝ :=
  if x = 0 ∨ x = 1 then x else 1 - (2 : ℝ) ^ (-10 * x)

def expo_in_out (x : ℝ) : ℝ :=
  if x = 0 ∨ x = 1 then x
  else if x < 0.5 then (2 : ℝ) ^ (20 * x - 10) / 2
  else (2 - (2 : ℝ) ^ (-20 * x + 10)) / 2

def circ_in (x : ℝ) : ℝ := 1 - Real.sqrt (1 - x ^ 2)

def circ_out (x : ℝ) : ℝ := Real.sqrt (1 - (x - 1) ^ 2)

def circ_in_out (x : ℝ) : ℝ :=
  if x < 0.5 then (1 - Real.sqrt (1 - (2 * x) ^ 2)) / 2
  else (Real.sqrt (1 - (-2 * x + 2) ^ 2) + 1) / 2

def back_in (x : ℝ) : ℝ :=
  if x = 0 ∨ x = 1 then x else backC3 * x * x * x - backC1 * x * x

def back_out (x : ℝ) : ℝ :=
  if x = 0 ∨ x = 1 then x
  else 1 + backC3 * (x - 1) ^ 3 + backC1 * (x - 1) ^ 2

def back_in_out (x : ℝ) : ℝ :=
  if x < 0.5 then ((2 * x) ^ 2 * ((backC2 + 1) * 2 * x - backC2)) / 2
  else ((2 * x - 2) ^ 2 * ((backC2 + 1) * (x * 2 - 2) + backC2) + 2) / 2

/-- `elastic_in`; the local `x2 = x * x` of the source is inlined. -/
def elastic_in (x : ℝ) : ℝ :=
  (x * x) * (x * x) * Real.sin (x * π * 4.5)

/-- `elastic_out`; the local `x2 = (x - 1.0) * (x - 1.0)` of the source is inlined. -/
def elastic_out (x : ℝ) : ℝ :=
  1 - ((x - 1) * (x - 1)) * ((x - 1) * (x - 1)) * Real.cos (x * π * 4.5)

/-- `elastic_in_out`; the locals `x2` of the source are inlined. -/
def elastic_in_out (x : ℝ) : ℝ :=
  if x < 0.45 then 8 * ((x * x) * (x * x)) * Real.sin (x * π * 9)
  else if x < 0.55 then 0.5 + 0.75 * Real.sin (x * π * 4)
  else 1 - 8 * (((x - 1) * (x - 1)) * ((x - 1) * (x - 1))) * Real.sin (x * π * 9)

def bounce_in (x : ℝ) : ℝ :=
  (2 : ℝ) ^ (6 * (x - 1)) * |Real.sin (x * π * 3.5)|

def bounce_out (x : ℝ) : ℝ :=
  1 - (2 : ℝ) ^ (-6 * x) * |Real.cos (x * π * 3.5)|

def bounce_in_out (x : ℝ) : ℝ :=
  if x < 0.5 then 8 * (2 : ℝ) ^ (8 * (x - 1)) * |Real.sin (x * π * 7)|
  else 1 - 8 * (2 : ℝ) ^ (-8 * x) * |Real.sin (x * π * 7)|

/-! ### Inverse evaluators (`ℝ → Option ℝ`; `none` models a call-time panic) -/

def inverse_sine_in (x : ℝ) : Option ℝ :=
  some (if x = 0 ∨ x = 1 then x else 2 * Real.arccos (1 - x) / π)

def inverse_sine_out (x : ℝ) : Option ℝ :=
  some (if x = 0 ∨ x = 1 then x else 2 * Real.arcsin x / π)

def inverse_sine_in_out (x : ℝ) : Option ℝ :=
  some (if x = 0 ∨ x = 1 then x else Real.arccos (1 - 2 * x) / π)

def inverse_quad_in (x : ℝ) : Option ℝ := some (Real.sqrt x)

def inverse_quad_out (x : ℝ) : Option ℝ := some (1 - Real.sqrt (1 - x))

def inverse_quad_in_out (x : ℝ) : Option ℝ :=
  some (if x < 0.5 then Real.sqrt (x / 2) else 1 - Real.sqrt ((1 - x) / 2))

def inverse_cubic_in (x : ℝ) : Option ℝ := some (cbrt x)

def inverse_cubic_out (x : ℝ) : Option ℝ := some (1 - cbrt (1 - x))

def inverse_cubic_in_out (x : ℝ) : Option ℝ :=
  some (if x = 0 ∨ x = 1 then x
    else if x < 0.5 then cbrt (x / 4)
    else 1 - cbrt (2 * (1 - x)) / 2)

def inverse_quart_in (x : ℝ) : Option ℝ := some (x ^ ((1 : ℝ) / 4))

def inverse_quart_out (x : ℝ) : Option ℝ := some (1 - (1 - x) ^ ((1 : ℝ) / 4))

def inverse_quart_in_out (x : ℝ) : Option ℝ :=
  some (if x = 0 ∨ x = 1 then x
    else if x < 0.5 then (x / 8) ^ ((1 : ℝ) / 4)
    else 1 - (2 * (1 - x)) ^ ((1 : ℝ) / 4) / 2)

def inverse_quint_in (x : ℝ) : Option ℝ := some (x ^ ((1 : ℝ) / 5))

def inverse_quint_out (x : ℝ) : Option ℝ := some (1 - (1 - x) ^ ((1 : ℝ) / 5))

def inverse_quint_in_out (x : ℝ) : Option ℝ :=
  some (if x = 0 ∨ x = 1 then x
    else if x < 0.5 then (x / 16) ^ ((1 : ℝ) / 5)
    else 1 - (2 * (1 - x)) ^ ((1 : ℝ) / 5) / 2)

def inverse_expo_in (x : ℝ) : Option ℝ :=
  some (if x = 0 ∨ x = 1 then x else Real.logb 2 x / 10 + 1)

def inverse_expo_out (x : ℝ) : Option ℝ :=
  some (if x = 0 ∨ x = 1 then x else -(Real.logb 2 (1 - x) / 10))

def inverse_expo_in_out (x : ℝ) : Option ℝ :=
  some (if x = 0 ∨ x = 1 then x
    else if x < 0.5 then (Real.logb 2 (2 * x) + 10) / 20
    else 1 - (Real.logb 2 (2 - 2 * x) + 10) / 20)

def inverse_circ_in (x : ℝ) : Option ℝ :=
  some (Real.sqrt (1 - (1 - x) ^ 2))

def inverse_circ_out (y : ℝ) : Option ℝ :=
  some (1 - Real.sqrt (1 - y ^ 2))

def inverse_circ_in_out (y : ℝ) : Option ℝ :=
  some (if y < 0.5 then Real.sqrt (1 - (1 - 2 * y) ^ 2) / 2
    else 1 - Real.sqrt (1 - (2 * y - 1) ^ 2) / 2)

/-- `unimplemented!("back is irreversible")`: the call panics for every input. -/
def inverse_back_in (_ : ℝ) : Option ℝ := none

/-- `unimplemented!("back is irreversible")`: the call panics for every input. -/
def inverse_back_out (_ : ℝ) : Option ℝ := none

/-- `unimplemented!("back is irreversible")`: the call panics for every input. -/
def inverse_back_in_out (_ : ℝ) : Option ℝ := none

/-- `unimplemented!("elastic is irreversible")`: the call panics for every input. -/
def inverse_elastic_in (_ : ℝ) : Option ℝ := none

/-- `unimplemented!("elastic is irreversible")`: the call panics for every input. -/
def inverse_elastic_out (_ : ℝ) : Option ℝ := none

/-- `unimplemented!("elastic is irreversible")`: the call panics for every input. -/
def inverse_elastic_in_out (_ : ℝ) : Option ℝ := none

/-- `unimplemented!("bounce is irreversible")`: the call panics for every input. -/
def inverse_bounce_in (_ : ℝ) : Option ℝ := none

/-- `unimplemented!("bounce is irreversible")`: the call panics for every input. -/
def inverse_bounce_out (_ : ℝ) : Option ℝ := none

/-- `unimplemented!("bounce is irreversible")`: the call panics for every input. -/
def inverse_bounce_in_out (_ : ℝ) : Option ℝ := none

/-! ### Dispatch (`Easing::apply_function`, `Easing::inverse_function`) -/

/-- `Easing::apply_function`; `none` models the `unreachable!` arm for `Max`. -/
def Easing.apply_function : Easing → Option (ℝ → ℝ)
  | .SineIn => some sine_in
  | .SineOut => some sine_out
  | .SineInOut => some sine_in_out
  | .QuadIn => some quad_in
  | .QuadOut => some quad_out
  | .QuadInOut => some quad_in_out
  | .CubicIn => some cubic_in
  | .CubicOut => some cubic_out
  | .CubicInOut => some cubic_in_out
  | .QuartIn => some quart_in
  | .QuartOut => some quart_out
  | .QuartInOut => some quart_in_out
  | .QuintIn => some quint_in
  | .QuintOut => some quint_out
  | .QuintInOut => some quint_in_out
  | .ExpoIn => some expo_in
  | .ExpoOut => some expo_out
  | .ExpoInOut => some expo_in_out
  | .CircIn => some circ_in
  | .CircOut => some circ_out
  | .CircInOut => some circ_in_out
  | .BackIn => some back_in
  | .BackOut => some back_out
  | .BackInOut => some back_in_out
  | .ElasticIn => some elastic_in
  | .ElasticOut => some elastic_out
  | .ElasticInOut => some elastic_in_out
  | .BounceIn => some bounce_in
  | .BounceOut => some bounce_out
  | .BounceInOut => some bounce_in_out
  | .Max => none

/-- `Easing::inverse_function`; `none` models the `unreachable!` arm for `Max`. -/
def Easing.inverse_function : Easing → Option (ℝ → Option ℝ)
  | .SineIn => some inverse_sine_in
  | .SineOut => some inverse_sine_out
  | .SineInOut => some inverse_sine_in_out
  | .QuadIn => some inverse_quad_in
  | .QuadOut => some inverse_quad_out
  | .QuadInOut => some inverse_quad_in_out
  | .CubicIn => some inverse_cubic_in
  | .CubicOut => some inverse_cubic_out
  | .CubicInOut => some inverse_cubic_in_out
  | .QuartIn => some inverse_quart_in
  | .QuartOut => some inverse_quart_out
  | .QuartInOut => some inverse_quart_in_out
  | .QuintIn => some inverse_quint_in
  | .QuintOut => some inverse_quint_out
  | .QuintInOut => some inverse_quint_in_out
  | .ExpoIn => some inverse_expo_in
  | .ExpoOut => some inverse_expo_out
  | .ExpoInOut => some inverse_expo_in_out
  | .CircIn => some inverse_circ_in
  | .CircOut => some inverse_circ_out
  | .CircInOut => some inverse_circ_in_out
  | .BackIn => some inverse_back_in
  | .BackOut => some inverse_back_out
  | .BackInOut => some inverse_back_in_out
  | .ElasticIn => some inverse_elastic_in
  | .ElasticOut => some inverse_elastic_out
  | .ElasticInOut => some inverse_elastic_in_out
  | .BounceIn => some inverse_bounce_in
  | .BounceOut => some inverse_bounce_out
  | .BounceInOut => some inverse_bounce_in_out
  | .Max => none

/-- `Easing::apply`: `(self.apply_function())(t)`.  `none` means the call
panicked (only possible via the `Max` dispatch). -/
def Easing.apply (e : Easing) (t : ℝ) : Option ℝ :=
  (e.apply_function).map (fun f => f t)

/-- `Easing::inverse`: `(self.inverse_function())(t)`.  `none` means the call
panicked (either at dispatch for `Max`, or at call time for the
Back/Elastic/Bounce inverse stubs). -/
def Easing.inverse (e : Easing) (t : ℝ) : Option ℝ :=
  (e.inverse_function).bind (fun f => f t)

/-! ### Structural claims -/

/-- C4: for every catalog variant, `Easing::reversible` returns `true` iff the
variant's family is one of Sine, Quad, Cubic, Quart, Quint, Expo, Circ, and it
returns `false` for every Back, Elastic and Bounce variant. -/
theorem reversible_iff_family :
    (∀ e : Easing, e.reversible = true ↔
      (e.family = some Family.Sine ∨ e.family = some Family.Quad ∨
       e.family = some Family.Cubic ∨ e.family = some Family.Quart ∨
       e.family = some Family.Quint ∨ e.family = some Family.Expo ∨
       e.family = some Family.Circ)) ∧
    (∀ e : Easing,
      (e.family = some Family.Back ∨ e.family = some Family.Elastic ∨
       e.family = some Family.Bounce) → e.reversible = false) := by
  constructor <;> decide

/-- C5: the catalog enumeration from `Easing::all()` yields exactly the 30
ordinals `0..29` in increasing order, never the sentinel; `Easing::from`
followed by `as usize` is the identity on `0..29`; and every ordinal `≥ 30`
maps to the sentinel `Max`. -/
theorem catalog_complete :
    (Easings.collect 31 Easing.all).length = 30 ∧
    (Easings.collect 31 Easing.all).map Easing.toOrdinal = List.range 30 ∧
    (∀ i, i < 30 → (Easing.fromUsize i).toOrdinal = i) ∧
    (∀ i, 30 ≤ i → Easing.fromUsize i = Easing.Max) ∧
    Easing.Max ∉ Easings.collect 31 Easing.all := by
  refine ⟨by decide, by decide, by decide, ?_, by decide⟩
  intro i hi
  obtain ⟨j, rfl⟩ : ∃ j, i = j + 30 := ⟨i - 30, by omega⟩
  rfl

/-- C5 witness: the ordinal round trip at `5` and the sentinel at `31`. -/
theorem catalog_complete_witness :
    (5 < 30 ∧ (Easing.fromUsize 5).toOrdinal = 5) ∧
    (30 ≤ 31 ∧ Easing.fromUsize 31 = Easing.Max) :=
  ⟨⟨by norm_num, catalog_complete.2.2.1 5 (by norm_num)⟩,
   ⟨by norm_num, catalog_complete.2.2.2.1 31 (by norm_num)⟩⟩

/-- C9: for the sentinel `Max`, both dispatchers hit the `unreachable!` arm,
so `apply` and `inverse` fail for every input. -/
theorem sentinel_max_panics :
    Easing.Max.apply_function = none ∧ Easing.Max.inverse_function = none ∧
    ∀ t : ℝ, Easing.Max.apply t = none ∧ Easing.Max.inverse t = none :=
  ⟨rfl, rfl, fun _ => ⟨rfl, rfl⟩⟩

/-- C10: a cursor whose current position is the sentinel `Max` is permanently
exhausted: `next` yields nothing and leaves the state unchanged, and no later
call ever yields an element. -/
theorem iterator_exhausted (s : Easings) (h : s.current = Easing.Max) :
    Easings.next s = (none, s) ∧ ∀ k, Easings.collect k s = [] := by
  have hnext : Easings.next s = (none, s) := by
    unfold Easings.next
    rw [h]
    simp
  refine ⟨hnext, fun k => ?_⟩
  cases k with
  | zero => rfl
  | succ n =>
    unfold Easings.collect
    rw [hnext]

/-- C10 witness: the exhausted cursor is permanently exhausted. -/
theorem iterator_exhausted_witness :
    (⟨Easing.Max⟩ : Easings).current = Easing.Max ∧
    (Easings.next ⟨Easing.Max⟩ = (none, ⟨Easing.Max⟩) ∧
     ∀ k, Easings.collect k ⟨Easing.Max⟩ = []) :=
  ⟨rfl, iterator_exhausted ⟨Easing.Max⟩ rfl⟩

/-- C8: forward evaluation succeeds (returns a value, never panics) for every
variant except the sentinel and every input. -/
theorem apply_total (e : Easing) (he : e ≠ Easing.Max) (t : ℝ) :
    ∃ y, e.apply t = some y := by
  cases e <;> first
    | exact absurd rfl he
    | exact ⟨_, rfl⟩

/-- C8 witness: forward evaluation of `BounceIn` succeeds at `t = 2`. -/
theorem apply_total_witness :
    Easing.BounceIn ≠ Easing.Max ∧ ∃ y, Easing.BounceIn.apply 2 = some y :=
  ⟨by decide, apply_total Easing.BounceIn (by decide) 2⟩

/-- C2: inverse evaluation fails at call time, for every input, on every
variant of the Back, Elastic and Bounce families; it succeeds, for every
input in `[0, 1]`, on every variant of the other seven families. -/
theorem inverse_gate (e : Easing) (fam : Family) (hf : e.family = some fam) :
    ((fam = Family.Back ∨ fam = Family.Elastic ∨ fam = Family.Bounce) →
      ∀ t : ℝ, e.inverse t = none) ∧
    ((fam ≠ Family.Back ∧ fam ≠ Family.Elastic ∧ fam ≠ Family.Bounce) →
      ∀ t ∈ Set.Icc (0 : ℝ) 1, ∃ y, e.inverse t = some y) := by
  cases e <;>
    first
      | exact Option.noConfusion hf
      | (injection hf with hf
         subst hf
         first
           | exact ⟨fun h => absurd h (by decide), fun _ t _ => ⟨_, rfl⟩⟩
           | exact ⟨fun _ t => rfl, fun h => absurd rfl h.1⟩
           | exact ⟨fun _ t => rfl, fun h => absurd rfl h.2.1⟩
           | exact ⟨fun _ t => rfl, fun h => absurd rfl h.2.2⟩)

/-- C2 witness: `BackIn`'s inverse fails at `0.5`; `SineIn`'s succeeds there. -/
theorem inverse_gate_witness :
    (Easing.BackIn.family = some Family.Back ∧
      Easing.BackIn.inverse 0.5 = none) ∧
    (Easing.SineIn.family = some Family.Sine ∧
      ∃ y, Easing.SineIn.inverse 0.5 = some y) :=
  ⟨⟨rfl, (inverse_gate Easing.BackIn Family.Back rfl).1 (Or.inl rfl) 0.5⟩,
   ⟨rfl, (inverse_gate Easing.SineIn Family.Sine rfl).2
      (by decide) 0.5 (by constructor <;> norm_num)⟩⟩

/-! ### Exact trigonometric values needed at the boundaries and midpoints -/

lemma sin_nine_pi_halves : Real.sin (π / 2 + 2 * π + 2 * π) = 1 := by
  rw [Real.sin_add_two_pi, Real.sin_add_two_pi, Real.sin_pi_div_two]

lemma sin_neg_pi_half_add_four_pi : Real.sin (-(π / 2) + 2 * π + 2 * π) = -1 := by
  rw [Real.sin_add_two_pi, Real.sin_add_two_pi, Real.sin_neg, Real.sin_pi_div_two]

lemma cos_neg_pi_half_add_four_pi : Real.cos (-(π / 2) + 2 * π + 2 * π) = 0 := by
  rw [Real.cos_add_two_pi, Real.cos_add_two_pi, Real.cos_neg, Real.cos_pi_div_two]

lemma sin_pi_add_six_pi : Real.sin (π + 2 * π + 2 * π + 2 * π) = 0 := by
  rw [Real.sin_add_two_pi, Real.sin_add_two_pi, Real.sin_add_two_pi, Real.sin_pi]

lemma sin_one_pi_mul_4_5 : Real.sin (1 * π * 4.5) = 1 := by
  rw [show (1 : ℝ) * π * 4.5 = π / 2 + 2 * π + 2 * π by ring, sin_nine_pi_halves]

lemma sin_one_pi_mul_3_5 : Real.sin (1 * π * 3.5) = -1 := by
  rw [show (1 : ℝ) * π * 3.5 = -(π / 2) + 2 * π + 2 * π by ring,
    sin_neg_pi_half_add_four_pi]

lemma cos_one_pi_mul_3_5 : Real.cos (1 * π * 3.5) = 0 := by
  rw [show (1 : ℝ) * π * 3.5 = -(π / 2) + 2 * π + 2 * π by ring,
    cos_neg_pi_half_add_four_pi]

lemma sin_one_pi_mul_7 : Real.sin (1 * π * 7) = 0 := by
  rw [show (1 : ℝ) * π * 7 = π + 2 * π + 2 * π + 2 * π by ring, sin_pi_add_six_pi]

/-! ### Boundary values of the forward evaluators -/

lemma sine_in_zero : sine_in 0 = 0 := by simp [sine_in]

lemma sine_in_one : sine_in 1 = 1 := by simp [sine_in]

lemma sine_out_zero : sine_out 0 = 0 := by simp [sine_out]

lemma sine_out_one : sine_out 1 = 1 := by simp [sine_out]

lemma sine_in_out_zero : sine_in_out 0 = 0 := by simp [sine_in_out]

lemma sine_in_out_one : sine_in_out 1 = 1 := by simp [sine_in_out]

lemma quad_in_zero : quad_in 0 = 0 := by norm_num [quad_in]

lemma quad_in_one : quad_in 1 = 1 := by norm_num [quad_in]

lemma quad_out_zero : quad_out 0 = 0 := by norm_num [quad_out]

lemma quad_out_one : quad_out 1 = 1 := by norm_num [quad_out]

lemma quad_in_out_zero : quad_in_out 0 = 0 := by norm_num [quad_in_out]

lemma quad_in_out_one : quad_in_out 1 = 1 := by norm_num [quad_in_out]

lemma cubic_in_zero : cubic_in 0 = 0 := by norm_num [cubic_in]

lemma cubic_in_one : cubic_in 1 = 1 := by norm_num [cubic_in]

lemma cubic_out_zero : cubic_out 0 = 0 := by norm_num [cubic_out]

lemma cubic_out_one : cubic_out 1 = 1 := by norm_num [cubic_out]

lemma cubic_in_out_zero : cubic_in_out 0 = 0 := by simp [cubic_in_out]

lemma cubic_in_out_one : cubic_in_out 1 = 1 := by simp [cubic_in_out]

lemma quart_in_zero : quart_in 0 = 0 := by norm_num [quart_in]

lemma quart_in_one : quart_in 1 = 1 := by norm_num [quart_in]

lemma quart_out_zero : quart_out 0 = 0 := by norm_num [quart_out]

lemma quart_out_one : quart_out 1 = 1 := by norm_num [quart_out]

lemma quart_in_out_zero : quart_in_out 0 = 0 := by norm_num [quart_in_out]

lemma quart_in_out_one : quart_in_out 1 = 1 := by norm_num [quart_in_out]

lemma quint_in_zero : quint_in 0 = 0 := by norm_num [quint_in]

lemma quint_in_one : quint_in 1 = 1 := by norm_num [quint_in]

lemma quint_out_zero : quint_out 0 = 0 := by norm_num [quint_out]

lemma quint_out_one : quint_out 1 = 1 := by norm_num [quint_out]

lemma quint_in_out_zero : quint_in_out 0 = 0 := by norm_num [quint_in_out]

lemma quint_in_out_one : quint_in_out 1 = 1 := by norm_num [quint_in_out]

lemma expo_in_zero : expo_in 0 = 0 := by simp [expo_in]

lemma expo_in_one : expo_in 1 = 1 := by simp [expo_in]

lemma expo_out_zero : expo_out 0 = 0 := by simp [expo_out]

lemma expo_out_one : expo_out 1 = 1 := by simp [expo_out]

lemma expo_in_out_zero : expo_in_out 0 = 0 := by simp [expo_in_out]

lemma expo_in_out_one : expo_in_out 1 = 1 := by simp [expo_in_out]

lemma circ_in_zero : circ_in 0 = 0 := by norm_num [circ_in]

lemma circ_in_one : circ_in 1 = 1 := by norm_num [circ_in]

lemma circ_out_zero : circ_out 0 = 0 := by norm_num [circ_out]

lemma circ_out_one : circ_out 1 = 1 := by norm_num [circ_out]

lemma circ_in_out_zero : circ_in_out 0 = 0 := by norm_num [circ_in_out]

lemma circ_in_out_one : circ_in_out 1 = 1 := by norm_num [circ_in_out]

lemma back_in_zero : back_in 0 = 0 := by simp [back_in]

lemma back_in_one : back_in 1 = 1 := by simp [back_in]

lemma back_out_zero : back_out 0 = 0 := by simp [back_out]

lemma back_out_one : back_out 1 = 1 := by simp [back_out]

lemma back_in_out_zero : back_in_out 0 = 0 := by norm_num [back_in_out]

lemma back_in_out_one : back_in_out 1 = 1 := by
  norm_num [back_in_out, backC2, backC1]

lemma elastic_in_zero : elastic_in 0 = 0 := by norm_num [elastic_in]

lemma elastic_in_one : elastic_in 1 = 1 := by
  unfold elastic_in
  rw [sin_one_pi_mul_4_5]
  norm_num

lemma elastic_out_zero : elastic_out 0 = 0 := by
  norm_num [elastic_out, Real.cos_zero]

lemma elastic_out_one : elastic_out 1 = 1 := by norm_num [elastic_out]

lemma elastic_in_out_zero : elastic_in_out 0 = 0 := by norm_num [elastic_in_out]

lemma elastic_in_out_one : elastic_in_out 1 = 1 := by norm_num [elastic_in_out]

lemma bounce_in_zero : bounce_in 0 = 0 := by
  norm_num [bounce_in, Real.sin_zero]

lemma bounce_in_one : bounce_in 1 = 1 := by
  unfold bounce_in
  rw [sin_one_pi_mul_3_5]
  norm_num [Real.rpow_zero]

lemma bounce_out_zero : bounce_out 0 = 0 := by
  norm_num [bounce_out, Real.cos_zero, Real.rpow_zero]

lemma bounce_out_one : bounce_out 1 = 1 := by
  unfold bounce_out
  rw [cos_one_pi_mul_3_5]
  norm_num

lemma bounce_in_out_zero : bounce_in_out 0 = 0 := by
  norm_num [bounce_in_out, Real.sin_zero]

lemma bounce_in_out_one : bounce_in_out 1 = 1 := by
  unfold bounce_in_out
  rw [if_neg (by norm_num), sin_one_pi_mul_7]
  norm_num

/-- C1: every one of the 30 catalog variants (the sentinel excluded) maps `0`
to exactly `0` and `1` to exactly `1` under forward evaluation. -/
theorem forward_boundary (e : Easing) (he : e ≠ Easing.Max) :
    e.apply 0 = some 0 ∧ e.apply 1 = some 1 := by
  cases e
  case SineIn => exact ⟨congrArg some sine_in_zero, congrArg some sine_in_one⟩
  case SineOut => exact ⟨congrArg some sine_out_zero, congrArg some sine_out_one⟩
  case SineInOut =>
    exact ⟨congrArg some sine_in_out_zero, congrArg some sine_in_out_one⟩
  case QuadIn => exact ⟨congrArg some quad_in_zero, congrArg some quad_in_one⟩
  case QuadOut => exact ⟨congrArg some quad_out_zero, congrArg some quad_out_one⟩
  case QuadInOut =>
    exact ⟨congrArg some quad_in_out_zero, congrArg some quad_in_out_one⟩
  case CubicIn => exact ⟨congrArg some cubic_in_zero, congrArg some cubic_in_one⟩
  case CubicOut =>
    exact ⟨congrArg some cubic_out_zero, congrArg some cubic_out_one⟩
  case CubicInOut =>
    exact ⟨congrArg some cubic_in_out_zero, congrArg some cubic_in_out_one⟩
  case QuartIn => exact ⟨congrArg some quart_in_zero, congrArg some quart_in_one⟩
  case QuartOut =>
    exact ⟨congrArg some quart_out_zero, congrArg some quart_out_one⟩
  case QuartInOut =>
    exact ⟨congrArg some quart_in_out_zero, congrArg some quart_in_out_one⟩
  case QuintIn => exact ⟨congrArg some quint_in_zero, congrArg some quint_in_one⟩
  case QuintOut =>
    exact ⟨congrArg some quint_out_zero, congrArg some quint_out_one⟩
  case QuintInOut =>
    exact ⟨congrArg some quint_in_out_zero, congrArg some quint_in_out_one⟩
  case ExpoIn => exact ⟨congrArg some expo_in_zero, congrArg some expo_in_one⟩
  case ExpoOut => exact ⟨congrArg some expo_out_zero, congrArg some expo_out_one⟩
  case ExpoInOut =>
    exact ⟨congrArg some expo_in_out_zero, congrArg some expo_in_out_one⟩
  case CircIn => exact ⟨congrArg some circ_in_zero, congrArg some circ_in_one⟩
  case CircOut => exact ⟨congrArg some circ_out_zero, congrArg some circ_out_one⟩
  case CircInOut =>
    exact ⟨congrArg some circ_in_out_zero, congrArg some circ_in_out_one⟩
  case BackIn => exact ⟨congrArg some back_in_zero, congrArg some back_in_one⟩
  case BackOut => exact ⟨congrArg some back_out_zero, congrArg some back_out_one⟩
  case BackInOut =>
    exact ⟨congrArg some back_in_out_zero, congrArg some back_in_out_one⟩
  case ElasticIn =>
    exact ⟨congrArg some elastic_in_zero, congrArg some elastic_in_one⟩
  case ElasticOut =>
    exact ⟨congrArg some elastic_out_zero, congrArg some elastic_out_one⟩
  case ElasticInOut =>
    exact ⟨congrArg some elastic_in_out_zero, congrArg some elastic_in_out_one⟩
  case BounceIn =>
    exact ⟨congrArg some bounce_in_zero, congrArg some bounce_in_one⟩
  case BounceOut =>
    exact ⟨congrArg some bounce_out_zero, congrArg some bounce_out_one⟩
  case BounceInOut =>
    exact ⟨congrArg some bounce_in_out_zero, congrArg some bounce_in_out_one⟩
  case Max => exact absurd rfl he

/-- C1 witness: the boundary law at `BounceOut`, a variant with no boundary
special case in its formula. -/
theorem forward_boundary_witness :
    Easing.BounceOut ≠ Easing.Max ∧
    (Easing.BounceOut.apply 0 = some 0 ∧ Easing.BounceOut.apply 1 = some 1) :=
  ⟨by decide, forward_boundary Easing.BounceOut (by decide)⟩

/-- The value of `sine_in_out` at the midpoint. -/
lemma sine_in_out_half : sine_in_out 0.5 = 0.5 := by
  unfold sine_in_out
  rw [if_neg (by norm_num), show (0.5 : ℝ) * π = π / 2 by ring,
    Real.cos_pi_div_two]
  norm_num


/-! ### The In-side and Out-side branch formulas of the InOut variants -/

/-- The "In"-side branch expression of each InOut variant's forward formula,
read off the source (`x < 0.5` branch; for `elastic_in_out` the `x < 0.45`
branch; for `sine_in_out`, whose formula is branch-free, the whole interior
formula).  `none` for non-InOut variants. -/
def inOutInBranch : Easing → Option (ℝ → ℝ)
  | .SineInOut => some (fun x => -(Real.cos (x * π) - 1) / 2)
  | .QuadInOut => some (fun x => 2 * x * x)
  | .CubicInOut => some (fun x => 4 * x * x * x)
  | .QuartInOut => some (fun x => 8 * x * x * x * x)
  | .QuintInOut => some (fun x => 16 * x * x * x * x * x)
  | .ExpoInOut => some (fun x => (2 : ℝ) ^ (20 * x - 10) / 2)
  | .CircInOut => some (fun x => (1 - Real.sqrt (1 - (2 * x) ^ 2)) / 2)
  | .BackInOut =>
    some (fun x => ((2 * x) ^ 2 * ((backC2 + 1) * 2 * x - backC2)) / 2)
  | .ElasticInOut =>
    some (fun x => 8 * ((x * x) * (x * x)) * Real.sin (x * π * 9))
  | .BounceInOut =>
    some (fun x => 8 * (2 : ℝ) ^ (8 * (x - 1)) * |Real.sin (x * π * 7)|)
  | _ => none

/-- The "Out"-side branch expression of each InOut variant's forward formula,
read off the source (the `else` branch; for `elastic_in_out` the `x ≥ 0.55`
branch; for `sine_in_out`, whose formula is branch-free, the whole interior
formula).  `none` for non-InOut variants. -/
def inOutOutBranch : Easing → Option (ℝ → ℝ)
  | .SineInOut => some (fun x => -(Real.cos (x * π) - 1) / 2)
  | .QuadInOut => some (fun x => 1 - (-2 * x + 2) * (-2 * x + 2) / 2)
  | .CubicInOut => some (fun x => 1 - (-2 * x + 2) ^ 3 / 2)
  | .QuartInOut => some (fun x => 1 - (-2 * x + 2) ^ 4 / 2)
  | .QuintInOut => some (fun x => 1 - (-2 * x + 2) ^ 5 / 2)
  | .ExpoInOut => some (fun x => (2 - (2 : ℝ) ^ (-20 * x + 10)) / 2)
  | .CircInOut => some (fun x => (Real.sqrt (1 - (-2 * x + 2) ^ 2) + 1) / 2)
  | .BackInOut =>
    some (fun x => ((2 * x - 2) ^ 2 * ((backC2 + 1) * (x * 2 - 2) + backC2) + 2) / 2)
  | .ElasticInOut =>
    some (fun x =>
      1 - 8 * (((x - 1) * (x - 1)) * ((x - 1) * (x - 1))) * Real.sin (x * π * 9))
  | .BounceInOut =>
    some (fun x => 1 - 8 * (2 : ℝ) ^ (-8 * x) * |Real.sin (x * π * 7)|)
  | _ => none

lemma sin_half_pi_mul_9 : Real.sin (0.5 * π * 9) = 1 := by
  rw [show (0.5 : ℝ) * π * 9 = π / 2 + 2 * π + 2 * π by ring, sin_nine_pi_halves]

lemma sin_half_pi_mul_7 : Real.sin (0.5 * π * 7) = -1 := by
  rw [show (0.5 : ℝ) * π * 7 = -(π / 2) + 2 * π + 2 * π by ring,
    sin_neg_pi_half_add_four_pi]

lemma two_rpow_neg_four : (2 : ℝ) ^ (-4 : ℝ) = 1 / 16 := by
  rw [show (-4 : ℝ) = ((-4 : ℤ) : ℝ) by norm_num, Real.rpow_intCast]
  norm_num

/-- C6: for every InOut variant, the In-side branch formula and the Out-side
branch formula agree at the midpoint `0.5` within `1e-6` (they agree
exactly, both evaluating to `0.5`). -/
theorem in_out_midpoint_continuity (e : Easing) (fIn fOut : ℝ → ℝ)
    (hIn : inOutInBranch e = some fIn) (hOut : inOutOutBranch e = some fOut) :
    |fIn 0.5 - fOut 0.5| ≤ 1e-6 := by
  cases e <;> first
    | exact Option.noConfusion hIn
    | (injection hIn with hIn
       injection hOut with hOut
       subst hIn
       subst hOut
       beta_reduce
       first
         | (norm_num; done)
         | (norm_num [backC2, backC1]; done)
         | (rw [sin_half_pi_mul_9]; norm_num)
         | (rw [sin_half_pi_mul_7,
              show (8 : ℝ) * (0.5 - 1) = -4 by norm_num,
              show (-8 : ℝ) * 0.5 = -4 by norm_num, two_rpow_neg_four]
            norm_num))

/-- C6 witness: the midpoint agreement at `QuadInOut`. -/
theorem in_out_midpoint_continuity_witness :
    inOutInBranch Easing.QuadInOut = some (fun x : ℝ => 2 * x * x) ∧
    inOutOutBranch Easing.QuadInOut =
      some (fun x : ℝ => 1 - (-2 * x + 2) * (-2 * x + 2) / 2) ∧
    |(fun x : ℝ => 2 * x * x) 0.5 -
      (fun x : ℝ => 1 - (-2 * x + 2) * (-2 * x + 2) / 2) 0.5| ≤ 1e-6 :=
  ⟨rfl, rfl, in_out_midpoint_continuity Easing.QuadInOut _ _ rfl rfl⟩

/-! ### Exact round trips of the reversible variants on `[0, 1]` -/

lemma cbrt_cube {t : ℝ} (h : 0 ≤ t) : cbrt (t * t * t) = t := by
  unfold cbrt
  rw [if_neg (not_lt.mpr (by positivity)), show t * t * t = t ^ (3 : ℕ) by ring,
    ← Real.rpow_natCast t 3, ← Real.rpow_mul h]
  norm_num

lemma rpow_quarter {t : ℝ} (h : 0 ≤ t) : (t * t * t * t) ^ ((1 : ℝ) / 4) = t := by
  rw [show t * t * t * t = t ^ (4 : ℕ) by ring, ← Real.rpow_natCast t 4,
    ← Real.rpow_mul h]
  norm_num

lemma rpow_fifth {t : ℝ} (h : 0 ≤ t) :
    (t * t * t * t * t) ^ ((1 : ℝ) / 5) = t := by
  rw [show t * t * t * t * t = t ^ (5 : ℕ) by ring, ← Real.rpow_natCast t 5,
    ← Real.rpow_mul h]
  norm_num

lemma roundtrip_quad_in {t : ℝ} (h0 : 0 ≤ t) (_ : t ≤ 1) :
    inverse_quad_in (quad_in t) = some t := by
  unfold quad_in inverse_quad_in
  rw [Real.sqrt_mul_self h0]

lemma roundtrip_quad_out {t : ℝ} (_ : 0 ≤ t) (h1 : t ≤ 1) :
    inverse_quad_out (quad_out t) = some t := by
  unfold quad_out inverse_quad_out
  congr 1
  rw [show (1 : ℝ) - (1 - (1 - t) * (1 - t)) = (1 - t) * (1 - t) by ring,
    Real.sqrt_mul_self (by linarith)]
  ring

lemma roundtrip_quad_in_out {t : ℝ} (h0 : 0 ≤ t) (h1 : t ≤ 1) :
    inverse_quad_in_out (quad_in_out t) = some t := by
  unfold quad_in_out inverse_quad_in_out
  by_cases hc : t < 0.5
  · rw [if_pos hc]
    congr 1
    rw [if_pos (by nlinarith : 2 * t * t < 0.5),
      show (2 * t * t) / 2 = t * t by ring, Real.sqrt_mul_self h0]
  · push_neg at hc
    rw [if_neg (not_lt.mpr hc)]
    congr 1
    rw [if_neg (by push_neg; nlinarith),
      show (1 - (1 - (-2 * t + 2) * (-2 * t + 2) / 2)) / 2 =
        (1 - t) * (1 - t) by ring,
      Real.sqrt_mul_self (by linarith)]
    ring

lemma roundtrip_cubic_in {t : ℝ} (h0 : 0 ≤ t) (_ : t ≤ 1) :
    inverse_cubic_in (cubic_in t) = some t := by
  unfold cubic_in inverse_cubic_in
  rw [cbrt_cube h0]

lemma roundtrip_cubic_out {t : ℝ} (_ : 0 ≤ t) (h1 : t ≤ 1) :
    inverse_cubic_out (cubic_out t) = some t := by
  unfold cubic_out inverse_cubic_out
  congr 1
  rw [show (1 : ℝ) - (1 - (1 - t) * (1 - t) * (1 - t)) =
      (1 - t) * (1 - t) * (1 - t) by ring,
    cbrt_cube (by linarith)]
  ring

lemma roundtrip_cubic_in_out {t : ℝ} (h0 : 0 ≤ t) (h1 : t ≤ 1) :
    inverse_cubic_in_out (cubic_in_out t) = some t := by
  unfold cubic_in_out inverse_cubic_in_out
  by_cases hz : t = 0
  · subst hz; norm_num
  by_cases ho : t = 1
  · subst ho; norm_num
  have hcond : ¬(t = 0 ∨ t = 1) := by tauto
  have ht0 : 0 < t := lt_of_le_of_ne h0 (Ne.symm hz)
  have ht1 : t < 1 := lt_of_le_of_ne h1 ho
  rw [if_neg hcond]
  by_cases hc : t < 0.5
  · rw [if_pos hc]
    have htt : t * t < 0.25 := by nlinarith
    have hy : 4 * t * t * t < 0.5 := by nlinarith [htt, mul_nonneg h0 h0]
    congr 1
    rw [if_neg (by
        push_neg
        exact ⟨(by positivity : (0 : ℝ) < 4 * t * t * t).ne',
          ne_of_lt (by linarith)⟩),
      if_pos hy,
      show (4 * t * t * t) / 4 = t * t * t by ring, cbrt_cube h0]
  · push_neg at hc
    rw [if_neg (not_lt.mpr hc)]
    have h2t : 0 ≤ -2 * t + 2 := by linarith
    have h2t1 : -2 * t + 2 ≤ 1 := by linarith
    have hvpos : 0 < -2 * t + 2 := by linarith
    have hv3 : (-2 * t + 2) ^ 3 ≤ 1 := by
      nlinarith [mul_nonneg h2t h2t]
    have hv3pos : 0 < (-2 * t + 2) ^ 3 := by positivity
    congr 1
    rw [if_neg (by
        push_neg
        exact ⟨(by linarith : (0 : ℝ) < 1 - (-2 * t + 2) ^ 3 / 2).ne',
          ne_of_lt (by linarith)⟩),
      if_neg (by push_neg; linarith),
      show 2 * (1 - (1 - (-2 * t + 2) ^ 3 / 2)) =
        (-2 * t + 2) * (-2 * t + 2) * (-2 * t + 2) by ring,
      cbrt_cube h2t]
    ring

lemma roundtrip_quart_in {t : ℝ} (h0 : 0 ≤ t) (_ : t ≤ 1) :
    inverse_quart_in (quart_in t) = some t := by
  unfold quart_in inverse_quart_in
  rw [rpow_quarter h0]

lemma roundtrip_quart_out {t : ℝ} (_ : 0 ≤ t) (h1 : t ≤ 1) :
    inverse_quart_out (quart_out t) = some t := by
  unfold quart_out inverse_quart_out
  congr 1
  rw [show (1 : ℝ) - (1 - (1 - t) ^ 4) = (1 - t) * (1 - t) * (1 - t) * (1 - t)
      by ring,
    rpow_quarter (by linarith)]
  ring

lemma roundtrip_quart_in_out {t : ℝ} (h0 : 0 ≤ t) (h1 : t ≤ 1) :
    inverse_quart_in_out (quart_in_out t) = some t := by
  unfold quart_in_out inverse_quart_in_out
  by_cases hc : t < 0.5
  · rw [if_pos hc]
    by_cases hz : t = 0
    · subst hz; norm_num
    have ht0 : 0 < t := lt_of_le_of_ne h0 (Ne.symm hz)
    have htt : t * t < 0.25 := by nlinarith
    have hy : 8 * t * t * t * t < 0.5 := by
      nlinarith [htt, mul_nonneg h0 h0, mul_nonneg (mul_nonneg h0 h0) h0]
    congr 1
    rw [if_neg (by
        push_neg
        exact ⟨(by positivity : (0 : ℝ) < 8 * t * t * t * t).ne',
          ne_of_lt (by linarith)⟩),
      if_pos hy,
      show (8 * t * t * t * t) / 8 = t * t * t * t by ring, rpow_quarter h0]
  · push_neg at hc
    rw [if_neg (not_lt.mpr hc)]
    by_cases ho : t = 1
    · subst ho; norm_num
    have ht1 : t < 1 := lt_of_le_of_ne h1 ho
    have h2t : 0 ≤ -2 * t + 2 := by linarith
    have h2t1 : -2 * t + 2 ≤ 1 := by linarith
    have hvpos : 0 < -2 * t + 2 := by linarith
    have hv4 : (-2 * t + 2) ^ 4 ≤ 1 := by
      nlinarith [mul_nonneg h2t h2t, mul_nonneg (mul_nonneg h2t h2t) h2t]
    have hv4pos : 0 < (-2 * t + 2) ^ 4 := by positivity
    congr 1
    rw [if_neg (by
        push_neg
        exact ⟨(by linarith : (0 : ℝ) < 1 - (-2 * t + 2) ^ 4 / 2).ne',
          ne_of_lt (by linarith)⟩),
      if_neg (by push_neg; linarith),
      show 2 * (1 - (1 - (-2 * t + 2) ^ 4 / 2)) =
        (-2 * t + 2) * (-2 * t + 2) * (-2 * t + 2) * (-2 * t + 2) by ring,
      rpow_quarter h2t]
    ring

lemma roundtrip_quint_in {t : ℝ} (h0 : 0 ≤ t) (_ : t ≤ 1) :
    inverse_quint_in (quint_in t) = some t := by
  unfold quint_in inverse_quint_in
  rw [rpow_fifth h0]

lemma roundtrip_quint_out {t : ℝ} (_ : 0 ≤ t) (h1 : t ≤ 1) :
    inverse_quint_out (quint_out t) = some t := by
  unfold quint_out inverse_quint_out
  congr 1
  rw [show (1 : ℝ) - (1 - (1 - t) ^ 5) =
      (1 - t) * (1 - t) * (1 - t) * (1 - t) * (1 - t) by ring,
    rpow_fifth (by linarith)]
  ring

lemma roundtrip_quint_in_out {t : ℝ} (h0 : 0 ≤ t) (h1 : t ≤ 1) :
    inverse_quint_in_out (quint_in_out t) = some t := by
  unfold quint_in_out inverse_quint_in_out
  by_cases hc : t < 0.5
  · rw [if_pos hc]
    by_cases hz : t = 0
    · subst hz; norm_num
    have ht0 : 0 < t := lt_of_le_of_ne h0 (Ne.symm hz)
    have htt : t * t < 0.25 := by nlinarith
    have htttt : t * t * t * t < 0.0625 := by
      nlinarith [htt, mul_nonneg h0 h0]
    have hy : 16 * t * t * t * t * t < 0.5 := by
      nlinarith [htttt, mul_nonneg (mul_nonneg (mul_nonneg h0 h0) h0) h0]
    congr 1
    rw [if_neg (by
        push_neg
        exact ⟨(by positivity : (0 : ℝ) < 16 * t * t * t * t * t).ne',
          ne_of_lt (by linarith)⟩),
      if_pos hy,
      show (16 * t * t * t * t * t) / 16 = t * t * t * t * t by ring,
      rpow_fifth h0]
  · push_neg at hc
    rw [if_neg (not_lt.mpr hc)]
    by_cases ho : t = 1
    · subst ho; norm_num
    have ht1 : t < 1 := lt_of_le_of_ne h1 ho
    have h2t : 0 ≤ -2 * t + 2 := by linarith
    have h2t1 : -2 * t + 2 ≤ 1 := by linarith
    have hvpos : 0 < -2 * t + 2 := by linarith
    have hv5 : (-2 * t + 2) ^ 5 ≤ 1 := by
      nlinarith [mul_nonneg h2t h2t, mul_nonneg (mul_nonneg h2t h2t) h2t,
        mul_nonneg (mul_nonneg (mul_nonneg h2t h2t) h2t) h2t]
    have hv5pos : 0 < (-2 * t + 2) ^ 5 := by positivity
    congr 1
    rw [if_neg (by
        push_neg
        exact ⟨(by linarith : (0 : ℝ) < 1 - (-2 * t + 2) ^ 5 / 2).ne',
          ne_of_lt (by linarith)⟩),
      if_neg (by push_neg; linarith),
      show 2 * (1 - (1 - (-2 * t + 2) ^ 5 / 2)) =
        (-2 * t + 2) * (-2 * t + 2) * (-2 * t + 2) * (-2 * t + 2) * (-2 * t + 2)
        by ring,
      rpow_fifth h2t]
    ring

lemma roundtrip_expo_in {t : ℝ} (h0 : 0 ≤ t) (h1 : t ≤ 1) :
    inverse_expo_in (expo_in t) = some t := by
  unfold expo_in inverse_expo_in
  by_cases hz : t = 0
  · subst hz; norm_num
  by_cases ho : t = 1
  · subst ho; norm_num
  have hcond : ¬(t = 0 ∨ t = 1) := by tauto
  have ht0 : 0 < t := lt_of_le_of_ne h0 (Ne.symm hz)
  have ht1 : t < 1 := lt_of_le_of_ne h1 ho
  rw [if_neg hcond]
  have hpos : (0 : ℝ) < (2 : ℝ) ^ (10 * t - 10) :=
    Real.rpow_pos_of_pos (by norm_num) _
  have hlt : (2 : ℝ) ^ (10 * t - 10) < 1 :=
    Real.rpow_lt_one_of_one_lt_of_neg (by norm_num) (by linarith)
  congr 1
  rw [if_neg (by push_neg; exact ⟨hpos.ne', hlt.ne⟩),
    Real.logb_rpow (by norm_num) (by norm_num)]
  ring

lemma roundtrip_expo_out {t : ℝ} (h0 : 0 ≤ t) (h1 : t ≤ 1) :
    inverse_expo_out (expo_out t) = some t := by
  unfold expo_out inverse_expo_out
  by_cases hz : t = 0
  · subst hz; norm_num
  by_cases ho : t = 1
  · subst ho; norm_num
  have hcond : ¬(t = 0 ∨ t = 1) := by tauto
  have ht0 : 0 < t := lt_of_le_of_ne h0 (Ne.symm hz)
  have ht1 : t < 1 := lt_of_le_of_ne h1 ho
  rw [if_neg hcond]
  have hpos : (0 : ℝ) < (2 : ℝ) ^ (-10 * t) :=
    Real.rpow_pos_of_pos (by norm_num) _
  have hlt : (2 : ℝ) ^ (-10 * t) < 1 :=
    Real.rpow_lt_one_of_one_lt_of_neg (by norm_num) (by linarith)
  congr 1
  rw [if_neg (by
      push_neg
      exact ⟨(by linarith : (0 : ℝ) < 1 - (2 : ℝ) ^ (-10 * t)).ne',
        ne_of_lt (by linarith)⟩),
    show (1 : ℝ) - (1 - (2 : ℝ) ^ (-10 * t)) = (2 : ℝ) ^ (-10 * t) by ring,
    Real.logb_rpow (by norm_num) (by norm_num)]
  ring

lemma roundtrip_expo_in_out {t : ℝ} (h0 : 0 ≤ t) (h1 : t ≤ 1) :
    inverse_expo_in_out (expo_in_out t) = some t := by
  unfold expo_in_out inverse_expo_in_out
  by_cases hz : t = 0
  · subst hz; norm_num
  by_cases ho : t = 1
  · subst ho; norm_num
  have hcond : ¬(t = 0 ∨ t = 1) := by tauto
  have ht0 : 0 < t := lt_of_le_of_ne h0 (Ne.symm hz)
  have ht1 : t < 1 := lt_of_le_of_ne h1 ho
  rw [if_neg hcond]
  by_cases hc : t < 0.5
  · rw [if_pos hc]
    have hpos : (0 : ℝ) < (2 : ℝ) ^ (20 * t - 10) :=
      Real.rpow_pos_of_pos (by norm_num) _
    have hlt : (2 : ℝ) ^ (20 * t - 10) < 1 :=
      Real.rpow_lt_one_of_one_lt_of_neg (by norm_num) (by linarith)
    congr 1
    rw [if_neg (by
        push_neg
        exact ⟨(by linarith : (0 : ℝ) < (2 : ℝ) ^ (20 * t - 10) / 2).ne',
          ne_of_lt (by linarith)⟩),
      if_pos (by linarith : (2 : ℝ) ^ (20 * t - 10) / 2 < 0.5),
      show 2 * ((2 : ℝ) ^ (20 * t - 10) / 2) = (2 : ℝ) ^ (20 * t - 10) by ring,
      Real.logb_rpow (by norm_num) (by norm_num)]
    ring
  · push_neg at hc
    rw [if_neg (not_lt.mpr hc)]
    have hpos : (0 : ℝ) < (2 : ℝ) ^ (-20 * t + 10) :=
      Real.rpow_pos_of_pos (by norm_num) _
    have hle : (2 : ℝ) ^ (-20 * t + 10) ≤ 1 :=
      Real.rpow_le_one_of_one_le_of_nonpos (by norm_num) (by linarith)
    congr 1
    rw [if_neg (by
        push_neg
        constructor
        · exact (by linarith :
            (0 : ℝ) < (2 - (2 : ℝ) ^ (-20 * t + 10)) / 2).ne'
        · exact ne_of_lt (by linarith)),
      if_neg (by push_neg; linarith),
      show (2 : ℝ) - 2 * ((2 - (2 : ℝ) ^ (-20 * t + 10)) / 2) =
        (2 : ℝ) ^ (-20 * t + 10) by ring,
      Real.logb_rpow (by norm_num) (by norm_num)]
    ring

lemma roundtrip_circ_in {t : ℝ} (h0 : 0 ≤ t) (h1 : t ≤ 1) :
    inverse_circ_in (circ_in t) = some t := by
  unfold circ_in inverse_circ_in
  congr 1
  rw [show (1 : ℝ) - (1 - Real.sqrt (1 - t ^ 2)) = Real.sqrt (1 - t ^ 2)
      by ring]
  rw [Real.sq_sqrt (by nlinarith : (0 : ℝ) ≤ 1 - t ^ 2),
    show (1 : ℝ) - (1 - t ^ 2) = t ^ 2 by ring, Real.sqrt_sq h0]

lemma roundtrip_circ_out {t : ℝ} (h0 : 0 ≤ t) (h1 : t ≤ 1) :
    inverse_circ_out (circ_out t) = some t := by
  unfold circ_out inverse_circ_out
  congr 1
  rw [Real.sq_sqrt (by nlinarith : (0 : ℝ) ≤ 1 - (t - 1) ^ 2),
    show (1 : ℝ) - (1 - (t - 1) ^ 2) = (t - 1) ^ 2 by ring,
    Real.sqrt_sq_eq_abs, abs_of_nonpos (by linarith)]
  ring

lemma roundtrip_circ_in_out {t : ℝ} (h0 : 0 ≤ t) (h1 : t ≤ 1) :
    inverse_circ_in_out (circ_in_out t) = some t := by
  unfold circ_in_out inverse_circ_in_out
  by_cases hc : t < 0.5
  · rw [if_pos hc]
    have hin : (0 : ℝ) < 1 - (2 * t) ^ 2 := by nlinarith
    have hs : 0 < Real.sqrt (1 - (2 * t) ^ 2) := Real.sqrt_pos.mpr hin
    congr 1
    rw [if_pos (by linarith : (1 - Real.sqrt (1 - (2 * t) ^ 2)) / 2 < 0.5),
      show (1 : ℝ) - 2 * ((1 - Real.sqrt (1 - (2 * t) ^ 2)) / 2) =
        Real.sqrt (1 - (2 * t) ^ 2) by ring,
      Real.sq_sqrt hin.le,
      show (1 : ℝ) - (1 - (2 * t) ^ 2) = (2 * t) ^ 2 by ring,
      Real.sqrt_sq (by linarith)]
    ring
  · push_neg at hc
    rw [if_neg (not_lt.mpr hc)]
    have hin : (0 : ℝ) ≤ 1 - (-2 * t + 2) ^ 2 := by nlinarith
    have hs : 0 ≤ Real.sqrt (1 - (-2 * t + 2) ^ 2) := Real.sqrt_nonneg _
    congr 1
    rw [if_neg (by
        push_neg
        linarith :
        ¬(Real.sqrt (1 - (-2 * t + 2) ^ 2) + 1) / 2 < 0.5),
      show 2 * ((Real.sqrt (1 - (-2 * t + 2) ^ 2) + 1) / 2) - 1 =
        Real.sqrt (1 - (-2 * t + 2) ^ 2) by ring,
      Real.sq_sqrt hin,
      show (1 : ℝ) - (1 - (-2 * t + 2) ^ 2) = (-2 * t + 2) ^ 2 by ring,
      Real.sqrt_sq (by linarith)]
    ring

lemma roundtrip_sine_in {t : ℝ} (h0 : 0 ≤ t) (h1 : t ≤ 1) :
    inverse_sine_in (sine_in t) = some t := by
  unfold sine_in inverse_sine_in
  by_cases hz : t = 0
  · subst hz; norm_num
  by_cases ho : t = 1
  · subst ho; norm_num
  have hcond : ¬(t = 0 ∨ t = 1) := by tauto
  have ht0 : 0 < t := lt_of_le_of_ne h0 (Ne.symm hz)
  have ht1 : t < 1 := lt_of_le_of_ne h1 ho
  have hπ := Real.pi_pos
  rw [if_neg hcond]
  have ha0 : 0 < t * π / 2 := by positivity
  have ha1 : t * π / 2 < π / 2 := by nlinarith
  have hcpos : 0 < Real.cos (t * π / 2) :=
    Real.cos_pos_of_mem_Ioo ⟨by nlinarith, ha1⟩
  have hclt : Real.cos (t * π / 2) < 1 := by
    have h := Real.cos_lt_cos_of_nonneg_of_le_pi (le_refl (0 : ℝ))
      (by nlinarith) ha0
    rwa [Real.cos_zero] at h
  congr 1
  rw [if_neg (by
      push_neg
      constructor
      · exact fun h => absurd (by linarith : Real.cos (t * π / 2) = 1) hclt.ne
      · exact fun h => absurd (by linarith : Real.cos (t * π / 2) = 0) hcpos.ne'),
    show (1 : ℝ) - (1 - Real.cos (t * π / 2)) = Real.cos (t * π / 2) by ring,
    Real.arccos_cos ha0.le (by nlinarith)]
  field_simp

lemma roundtrip_sine_out {t : ℝ} (h0 : 0 ≤ t) (h1 : t ≤ 1) :
    inverse_sine_out (sine_out t) = some t := by
  unfold sine_out inverse_sine_out
  by_cases hz : t = 0
  · subst hz; norm_num
  by_cases ho : t = 1
  · subst ho; norm_num
  have hcond : ¬(t = 0 ∨ t = 1) := by tauto
  have ht0 : 0 < t := lt_of_le_of_ne h0 (Ne.symm hz)
  have ht1 : t < 1 := lt_of_le_of_ne h1 ho
  have hπ := Real.pi_pos
  rw [if_neg hcond]
  have ha0 : 0 < t * π / 2 := by positivity
  have ha1 : t * π / 2 < π / 2 := by nlinarith
  have hspos : 0 < Real.sin (t * π / 2) :=
    Real.sin_pos_of_pos_of_lt_pi ha0 (by nlinarith)
  have hslt : Real.sin (t * π / 2) < 1 := by
    have h := Real.sin_lt_sin_of_lt_of_le_pi_div_two (by nlinarith)
      (le_refl (π / 2)) ha1
    rwa [Real.sin_pi_div_two] at h
  congr 1
  rw [if_neg (by push_neg; exact ⟨hspos.ne', hslt.ne⟩),
    Real.arcsin_sin (by nlinarith) ha1.le]
  field_simp

lemma roundtrip_sine_in_out {t : ℝ} (h0 : 0 ≤ t) (h1 : t ≤ 1) :
    inverse_sine_in_out (sine_in_out t) = some t := by
  unfold sine_in_out inverse_sine_in_out
  by_cases hz : t = 0
  · subst hz; norm_num
  by_cases ho : t = 1
  · subst ho; norm_num
  have hcond : ¬(t = 0 ∨ t = 1) := by tauto
  have ht0 : 0 < t := lt_of_le_of_ne h0 (Ne.symm hz)
  have ht1 : t < 1 := lt_of_le_of_ne h1 ho
  have hπ := Real.pi_pos
  rw [if_neg hcond]
  have ha0 : 0 < t * π := by positivity
  have ha1 : t * π < π := by nlinarith
  have hclt : Real.cos (t * π) < 1 := by
    have h := Real.cos_lt_cos_of_nonneg_of_le_pi (le_refl (0 : ℝ)) ha1.le ha0
    rwa [Real.cos_zero] at h
  have hcgt : -1 < Real.cos (t * π) := by
    have h := Real.cos_lt_cos_of_nonneg_of_le_pi ha0.le (le_refl π) ha1
    rwa [Real.cos_pi] at h
  congr 1
  rw [if_neg (by
      push_neg
      constructor
      · exact fun h => absurd (by linarith : Real.cos (t * π) = 1) hclt.ne
      · exact fun h => absurd (by linarith : Real.cos (t * π) = -1) hcgt.ne'),
    show (1 : ℝ) - 2 * (-(Real.cos (t * π) - 1) / 2) = Real.cos (t * π)
      by ring,
    Real.arccos_cos ha0.le ha1.le]
  field_simp

/-- C3: for every reversible variant and every `t ∈ [0, 1]`,
`inverse(forward(t))` is within `1e-3` of `t` (in this exact-arithmetic model
the round trip recovers `t` exactly, which covers the sampled grid
`{0.0, 0.1, …, 1.0}` of the claim). -/
theorem inverse_roundtrip (e : Easing) (hrev : e.reversible = true) (t : ℝ)
    (h0 : 0 ≤ t) (h1 : t ≤ 1) :
    ∃ u, (e.apply t).bind e.inverse = some u ∧ |u - t| ≤ 1e-3 := by
  have habs : |t - t| ≤ (1e-3 : ℝ) := by rw [sub_self, abs_zero]; norm_num
  cases e
  case SineIn => exact ⟨t, roundtrip_sine_in h0 h1, habs⟩
  case SineOut => exact ⟨t, roundtrip_sine_out h0 h1, habs⟩
  case SineInOut => exact ⟨t, roundtrip_sine_in_out h0 h1, habs⟩
  case QuadIn => exact ⟨t, roundtrip_quad_in h0 h1, habs⟩
  case QuadOut => exact ⟨t, roundtrip_quad_out h0 h1, habs⟩
  case QuadInOut => exact ⟨t, roundtrip_quad_in_out h0 h1, habs⟩
  case CubicIn => exact ⟨t, roundtrip_cubic_in h0 h1, habs⟩
  case CubicOut => exact ⟨t, roundtrip_cubic_out h0 h1, habs⟩
  case CubicInOut => exact ⟨t, roundtrip_cubic_in_out h0 h1, habs⟩
  case QuartIn => exact ⟨t, roundtrip_quart_in h0 h1, habs⟩
  case QuartOut => exact ⟨t, roundtrip_quart_out h0 h1, habs⟩
  case QuartInOut => exact ⟨t, roundtrip_quart_in_out h0 h1, habs⟩
  case QuintIn => exact ⟨t, roundtrip_quint_in h0 h1, habs⟩
  case QuintOut => exact ⟨t, roundtrip_quint_out h0 h1, habs⟩
  case QuintInOut => exact ⟨t, roundtrip_quint_in_out h0 h1, habs⟩
  case ExpoIn => exact ⟨t, roundtrip_expo_in h0 h1, habs⟩
  case ExpoOut => exact ⟨t, roundtrip_expo_out h0 h1, habs⟩
  case ExpoInOut => exact ⟨t, roundtrip_expo_in_out h0 h1, habs⟩
  case CircIn => exact ⟨t, roundtrip_circ_in h0 h1, habs⟩
  case CircOut => exact ⟨t, roundtrip_circ_out h0 h1, habs⟩
  case CircInOut => exact ⟨t, roundtrip_circ_in_out h0 h1, habs⟩
  case BackIn => exact absurd hrev (by decide)
  case BackOut => exact absurd hrev (by decide)
  case BackInOut => exact absurd hrev (by decide)
  case ElasticIn => exact absurd hrev (by decide)
  case ElasticOut => exact absurd hrev (by decide)
  case ElasticInOut => exact absurd hrev (by decide)
  case BounceIn => exact absurd hrev (by decide)
  case BounceOut => exact absurd hrev (by decide)
  case BounceInOut => exact absurd hrev (by decide)
  case Max => exact absurd hrev (by decide)

/-- C3 witness: the round trip of `QuadIn` at `t = 0.3`. -/
theorem inverse_roundtrip_witness :
    (Easing.QuadIn.reversible = true ∧ (0 : ℝ) ≤ 0.3 ∧ (0.3 : ℝ) ≤ 1) ∧
    ∃ u, (Easing.QuadIn.apply 0.3).bind Easing.QuadIn.inverse = some u ∧
      |u - 0.3| ≤ 1e-3 :=
  ⟨⟨by decide, by norm_num, by norm_num⟩,
    inverse_roundtrip Easing.QuadIn (by decide) 0.3 (by norm_num) (by norm_num)⟩

/-! ### The f64 rounding model for the `sine_in_out` midpoint (claim C7)

The claim `apply(SineInOut, 0.5) == 0.5` asserts *exact f64 equality*.  The
exact-real model above erases the floating-point rounding of the interior
formula `-((x * PI).cos() - 1.0) / 2.0`, so it is decided here against a
faithful IEEE-754 binary64 model of that one computation: values are reals,
each operation is followed by rounding to the 53-bit grid of its binade
(`fl64`), `PI` is the exact value of the f64 constant
`std::f64::consts::PI`, and `cos` is modelled as correctly rounded.  In this
model the program returns `0.5 - 2⁻⁵⁴`, not `0.5` — matching the repository's
own test, which asserts `sine_in_out(0.5)` only approximately
(`assert_approx_eq!`, easing.rs line 1052) while the boundary tests use
`assert_eq!`.  The result is robust: it only needs
`cos(fl(0.5 * PI)) > 2⁻⁵⁴ + 2⁻¹⁰⁷` with the true value near `6.12e-17`, about
`4.6e14` ulps above the threshold, so any faithful (≤ 1 ulp) `cos`
implementation yields the same answer.  Ties-to-even is not distinguished
from ties-up by `fl64` because no intermediate value here lands on a tie. -/

/-- The exact real value of the f64 constant `std::f64::consts::PI`
(`7074237752028440 * 2⁻⁵¹`). -/
def PI64 : ℝ := 884279719003555 / 2 ^ 48

/-- Rounding to nearest in IEEE binary64: the input is scaled by the ulp of
its binade (`2 ^ (⌊log₂ |x|⌋ - 52)`), rounded to an integer, and scaled back.
Subnormal and overflow ranges are not modelled, and ties round half-up rather
than to even; neither is exercised by the computation verified below. -/
def fl64 (x : ℝ) : ℝ :=
  if x = 0 then 0
  else ((round (x / (2 : ℝ) ^ (Int.log 2 |x| - 52)) : ℤ) : ℝ) *
    (2 : ℝ) ^ (Int.log 2 |x| - 52)

/-- The IEEE binary64 evaluation of the interior formula of `sine_in_out` at
`x = 0.5`: `-((x * PI).cos() - 1.0) / 2.0` with every operation rounded
(negation is exact in IEEE-754 and needs no rounding step). -/
def sine_in_out_f64_half : ℝ :=
  fl64 (-(fl64 (fl64 (Real.cos (fl64 (0.5 * PI64))) - 1)) / 2)

lemma int_log_two_eq {x : ℝ} {e : ℤ} (h1 : (2 : ℝ) ^ e ≤ x)
    (h2 : x < (2 : ℝ) ^ (e + 1)) : Int.log 2 x = e := by
  have hx : 0 < x := lt_of_lt_of_le (by positivity) h1
  have hl : ((2 : ℕ) : ℝ) ^ Int.log 2 x ≤ x := Int.zpow_log_le_self (by norm_num) hx
  have hu : x < ((2 : ℕ) : ℝ) ^ (Int.log 2 x + 1) :=
    Int.lt_zpow_succ_log_self (by norm_num) x
  push_cast at hl hu
  by_contra hne
  rcases lt_or_gt_of_ne hne with h | h
  · have hle : (2 : ℝ) ^ (Int.log 2 x + 1) ≤ 2 ^ e :=
      zpow_le_zpow_right₀ (by norm_num) (by omega)
    linarith
  · have hle : (2 : ℝ) ^ (e + 1) ≤ 2 ^ Int.log 2 x :=
      zpow_le_zpow_right₀ (by norm_num) (by omega)
    linarith

lemma fl64_eval {x : ℝ} {e : ℤ} (hx : x ≠ 0) (h1 : (2 : ℝ) ^ e ≤ |x|)
    (h2 : |x| < (2 : ℝ) ^ (e + 1)) :
    fl64 x = ((round (x / (2 : ℝ) ^ (e - 52)) : ℤ) : ℝ) * (2 : ℝ) ^ (e - 52) := by
  unfold fl64
  rw [if_neg hx, int_log_two_eq h1 h2]

lemma fl64_fix {x : ℝ} {e : ℤ} (hx : x ≠ 0) (h1 : (2 : ℝ) ^ e ≤ |x|)
    (h2 : |x| < (2 : ℝ) ^ (e + 1)) (m : ℤ) (hm : x = m * (2 : ℝ) ^ (e - 52)) :
    fl64 x = x := by
  rw [fl64_eval hx h1 h2, hm,
    mul_div_cancel_right₀ _ (by positivity : (2 : ℝ) ^ (e - 52) ≠ 0),
    round_intCast]

lemma fl64_err {x : ℝ} {e : ℤ} (hx : x ≠ 0) (h1 : (2 : ℝ) ^ e ≤ |x|)
    (h2 : |x| < (2 : ℝ) ^ (e + 1)) : |fl64 x - x| ≤ (2 : ℝ) ^ (e - 53) := by
  rw [fl64_eval hx h1 h2]
  have hs : (0 : ℝ) < (2 : ℝ) ^ (e - 52) := by positivity
  have hrw : ((round (x / (2 : ℝ) ^ (e - 52)) : ℤ) : ℝ) * (2 : ℝ) ^ (e - 52) - x =
      (((round (x / (2 : ℝ) ^ (e - 52)) : ℤ) : ℝ) - x / (2 : ℝ) ^ (e - 52)) *
        (2 : ℝ) ^ (e - 52) := by
    field_simp
  rw [hrw, abs_mul, abs_of_pos hs, abs_sub_comm]
  have hhalf := abs_sub_round (x / (2 : ℝ) ^ (e - 52))
  have h2e : (2 : ℝ) ^ (e - 53) = (1 / 2) * (2 : ℝ) ^ (e - 52) := by
    rw [show e - 52 = (e - 53) + 1 by ring, zpow_add₀ (by norm_num : (2 : ℝ) ≠ 0)]
    ring
  rw [h2e]
  exact mul_le_mul_of_nonneg_right hhalf hs.le

set_option maxHeartbeats 1000000 in
lemma cos_PI64_half_gt : 11 / (10 * 2 ^ 54) < Real.cos (PI64 / 2) := by
  have hπl := Real.pi_gt_d20
  have hπu := Real.pi_lt_d20
  rw [← Real.sin_pi_div_two_sub]
  have hPI : PI64 = 884279719003555 / 2 ^ 48 := rfl
  have hε0 : 0 < π / 2 - PI64 / 2 := by rw [hPI]; norm_num at hπl ⊢; linarith
  have hεu : π / 2 - PI64 / 2 <
      (3.14159265358979323847 - 884279719003555 / 2 ^ 48) / 2 := by
    rw [hPI]; linarith
  have hε1 : π / 2 - PI64 / 2 ≤ 1 := by
    have h : ((3.14159265358979323847 : ℝ) - 884279719003555 / 2 ^ 48) / 2 ≤ 1 := by
      norm_num
    linarith
  have hsin := Real.sin_gt_sub_cube hε0 hε1
  have hcube : (π / 2 - PI64 / 2) ^ 3 <
      ((3.14159265358979323847 - 884279719003555 / 2 ^ 48) / 2) ^ 3 :=
    pow_lt_pow_left₀ hεu hε0.le (by norm_num)
  have hεl : (3.14159265358979323846 - 884279719003555 / 2 ^ 48) / 2 <
      π / 2 - PI64 / 2 := by rw [hPI]; linarith
  have hkey : (11 : ℝ) / (10 * 2 ^ 54) <
      (3.14159265358979323846 - 884279719003555 / 2 ^ 48) / 2 -
      ((3.14159265358979323847 - 884279719003555 / 2 ^ 48) / 2) ^ 3 / 4 := by
    norm_num
  linarith

set_option maxHeartbeats 1000000 in
lemma cos_PI64_half_lt : Real.cos (PI64 / 2) < 6 / (10 * 2 ^ 53) := by
  have hπu := Real.pi_lt_d20
  rw [← Real.sin_pi_div_two_sub]
  have hPI : PI64 = 884279719003555 / 2 ^ 48 := rfl
  have hπl := Real.pi_gt_d20
  have hε0 : 0 < π / 2 - PI64 / 2 := by rw [hPI]; norm_num at hπl ⊢; linarith
  have hsin := Real.sin_lt hε0
  have hεu : π / 2 - PI64 / 2 <
      (3.14159265358979323847 - 884279719003555 / 2 ^ 48) / 2 := by
    rw [hPI]; linarith
  have hkey : ((3.14159265358979323847 : ℝ) - 884279719003555 / 2 ^ 48) / 2 <
      6 / (10 * 2 ^ 53) := by norm_num
  linarith

lemma fl64_half_PI64 : fl64 (0.5 * PI64) = PI64 / 2 := by
  have hval : (0.5 : ℝ) * PI64 = PI64 / 2 := by ring
  rw [hval]
  exact fl64_fix
    (by unfold PI64; norm_num)
    (by unfold PI64
        rw [abs_of_pos (by norm_num)]
        norm_num : (2 : ℝ) ^ (0 : ℤ) ≤ |PI64 / 2|)
    (by unfold PI64
        rw [abs_of_pos (by norm_num)]
        norm_num : |PI64 / 2| < (2 : ℝ) ^ ((0 : ℤ) + 1))
    7074237752028440
    (by unfold PI64; norm_num)

set_option maxHeartbeats 1000000 in
lemma sine_in_out_f64_half_eq : sine_in_out_f64_half = 1 / 2 - 1 / 2 ^ 54 := by
  unfold sine_in_out_f64_half
  rw [fl64_half_PI64]
  have hClo := cos_PI64_half_gt
  have hChi := cos_PI64_half_lt
  set C := Real.cos (PI64 / 2) with hCdef
  have hCpos : 0 < C := lt_trans (by norm_num) hClo
  have hC1 : (2 : ℝ) ^ (-(54 : ℤ)) ≤ |C| := by
    rw [abs_of_pos hCpos, show (2 : ℝ) ^ (-(54 : ℤ)) = 1 / 2 ^ 54 by norm_num]
    have h : (1 : ℝ) / 2 ^ 54 < 11 / (10 * 2 ^ 54) := by norm_num
    linarith
  have hC2 : |C| < (2 : ℝ) ^ (-(54 : ℤ) + 1) := by
    rw [abs_of_pos hCpos, show (2 : ℝ) ^ (-(54 : ℤ) + 1) = 1 / 2 ^ 53 by norm_num]
    have h : (6 : ℝ) / (10 * 2 ^ 53) < 1 / 2 ^ 53 := by norm_num
    linarith
  have hcerr : |fl64 C - C| ≤ (2 : ℝ) ^ (-(54 : ℤ) - 53) := fl64_err hCpos.ne' hC1 hC2
  rw [show (2 : ℝ) ^ (-(54 : ℤ) - 53) = 1 / 2 ^ 107 by norm_num] at hcerr
  set c := fl64 C with hcdef
  obtain ⟨he1, he2⟩ := abs_sub_le_iff.mp hcerr
  have hclo : 11 / (10 * 2 ^ 54) - 1 / 2 ^ 107 < c := by linarith
  have hchi : c < 6 / (10 * 2 ^ 53) + 1 / 2 ^ 107 := by linarith
  have hchalf : c ≤ 1 / 2 := by
    have h : (6 : ℝ) / (10 * 2 ^ 53) + 1 / 2 ^ 107 ≤ 1 / 2 := by norm_num
    linarith
  have hcpos : 0 < c := by
    have h : (0 : ℝ) < 11 / (10 * 2 ^ 54) - 1 / 2 ^ 107 := by norm_num
    linarith
  have hcm1_ne : c - 1 ≠ 0 := by
    intro h
    have hc1 : c = 1 := by linarith
    rw [hc1] at hchalf
    norm_num at hchalf
  have hcm1_abs : |c - 1| = 1 - c := by
    rw [abs_of_neg (by linarith : c - 1 < 0)]
    ring
  have hd1 : (2 : ℝ) ^ (-(1 : ℤ)) ≤ |c - 1| := by
    rw [hcm1_abs, show (2 : ℝ) ^ (-(1 : ℤ)) = 1 / 2 by norm_num]
    linarith
  have hd2 : |c - 1| < (2 : ℝ) ^ (-(1 : ℤ) + 1) := by
    rw [hcm1_abs, show (2 : ℝ) ^ (-(1 : ℤ) + 1) = 1 by norm_num]
    linarith
  have hdval : fl64 (c - 1) = -1 + 1 / 2 ^ 53 := by
    rw [fl64_eval hcm1_ne hd1 hd2,
      show (2 : ℝ) ^ (-(1 : ℤ) - 52) = 1 / 2 ^ 53 by norm_num,
      show (c - 1) / ((1 : ℝ) / 2 ^ 53) = (c - 1) * 2 ^ 53 by field_simp]
    have hround : round ((c - 1) * 2 ^ 53) = -(2 ^ 53) + 1 := by
      rw [round_eq]
      apply Int.floor_eq_iff.mpr
      constructor
      · push_cast
        nlinarith [hclo]
      · push_cast
        nlinarith [hchi]
    rw [hround]
    push_cast
    norm_num
  rw [hdval, show -(-1 + (1 : ℝ) / 2 ^ 53) / 2 = 1 / 2 - 1 / 2 ^ 54 by norm_num]
  exact fl64_fix
    (by norm_num)
    (by rw [abs_of_pos (by norm_num)]
        norm_num : (2 : ℝ) ^ (-(2 : ℤ)) ≤ |1 / 2 - 1 / 2 ^ 54|)
    (by rw [abs_of_pos (by norm_num)]
        norm_num : |1 / 2 - 1 / 2 ^ 54| < (2 : ℝ) ^ (-(2 : ℤ) + 1))
    9007199254740991
    (by norm_num)

/-- C7 counterexample: in the IEEE binary64 model of the program's formula,
`apply(SineInOut, 0.5)` is `0.5 - 2⁻⁵⁴`, not `0.5` — the claimed exact f64
equality fails. -/
theorem sine_in_out_midpoint_cex :
    sine_in_out_f64_half = 0.5 - 1 / 2 ^ 54 ∧ sine_in_out_f64_half ≠ 0.5 := by
  have h := sine_in_out_f64_half_eq
  constructor
  · rw [h]; norm_num
  · rw [h]; norm_num

/-- C7 (amended): `apply(SineInOut, 0.5)` returns `0.5 - 2⁻⁵⁴` in f64 — equal
to `0.5` only approximately (within `1e-6`, as the repository's own test
asserts), while the exact-real model of the formula gives exactly `0.5`. -/
theorem sine_in_out_midpoint_f64 :
    sine_in_out_f64_half = 0.5 - 1 / 2 ^ 54 ∧
    |sine_in_out_f64_half - 0.5| ≤ 1e-6 ∧
    Easing.SineInOut.apply 0.5 = some 0.5 := by
  have h := sine_in_out_f64_half_eq
  have habs : |(1 : ℝ) / 2 - 1 / 2 ^ 54 - 0.5| = 1 / 2 ^ 54 := by
    rw [show (1 : ℝ) / 2 - 1 / 2 ^ 54 - 0.5 = -(1 / 2 ^ 54) by norm_num,
      abs_neg, abs_of_pos (by norm_num : (0 : ℝ) < 1 / 2 ^ 54)]
  refine ⟨by rw [h]; norm_num, by rw [h, habs]; norm_num,
    congrArg some sine_in_out_half⟩
